import Mathlib

/-!
Shallow embedding of `hardbcbase` (a physics-informed neural network for a
1D advection-diffusion equation) and verification of its specification.

Real-valued arrays are modelled as functions `Fin n → ℝ`; an `N × 1` column
is `Fin n → ℝ`; coordinate batches are `Fin n → ℝ × ℝ` (mirroring the
`N × 2` array `colloc`).  `jax.grad` of a scalar function of one column is
modelled per component as the one-dimensional derivative `deriv` along that
component (the mathematical partial derivative).
-/

namespace HardBC

/-- Domain boundaries (source lines 19-20): `xmin, xmax = 0.0, 1.0`. -/
noncomputable def xmin : ℝ := 0.0

/-- Domain right end (source line 19). -/
noncomputable def xmax : ℝ := 1.0

/-- Time domain left end (source line 20): `tmin, tmax = 0.0, 1.0`. -/
noncomputable def tmin : ℝ := 0.0

/-- Time domain right end (source line 20). -/
noncomputable def tmax : ℝ := 1.0

/-- One network layer (source `{'W': W, 'B': B}`): a weight matrix of shape
`(inputs, outputs)` and a bias vector of shape `(outputs,)`. -/
structure Layer (nin nout : ℕ) : Type where
  W : Fin nin → Fin nout → ℝ
  B : Fin nout → ℝ

/-- A ParameterSet: a nonempty ordered sequence of Layers whose widths chain,
with overall input width `nin` and output width `nout`. -/
inductive Params : ℕ → ℕ → Type where
  | last {a b : ℕ} : Layer a b → Params a b
  | cons {a k b : ℕ} : Layer a k → Params k b → Params a b

/-- The affine map of one layer applied to one input row:
`(X @ W + B)_j = (∑ i, X_i * W i j) + B_j`. -/
noncomputable def dense {a b : ℕ} (L : Layer a b) (v : Fin a → ℝ) : Fin b → ℝ :=
  fun j => (∑ i, v i * L.W i j) + L.B j

/-- Forward pass of `neural_net` (source lines 104-122) on one input row:
every non-terminal layer applies `tanh(X @ W + B)`, the terminal layer is
affine without activation. -/
noncomputable def neural_net : {a b : ℕ} → Params a b → (Fin a → ℝ) → Fin b → ℝ
  | _, _, .last L, v => dense L v
  | _, _, .cons L rest, v => neural_net rest (fun j => Real.tanh (dense L v j))

/-- `neural_net_with_hard_constraint` (source lines 125-148), per point:
`u(x,t) = base_nn(x,t) * x + (1.0 - x)` where `base_nn` is `neural_net`
applied to the row `[x, t]`. -/
noncomputable def neural_net_with_hard_constraint (p : Params 2 1) (x t : ℝ) : ℝ :=
  neural_net p (![x, t]) 0 * x + (1.0 - x)

/-- Claim C1: for every ParameterSet and every time value `t`, the forward
model with the hard constraint returns exactly 1 at `x = 0`:
`u(0, t) = base(0, t) * 0 + (1 - 0) = 1`, independent of the network's
weights and biases. -/
theorem forward_model_hard_constraint_at_zero (p : Params 2 1) (t : ℝ) :
    neural_net_with_hard_constraint p 0 t = 1 := by
  simp [neural_net_with_hard_constraint]
  norm_num

/-- A batch-level scalar field: a function taking an x-column and a t-column
(each `N × 1`) to an `N × 1` output column. -/
abbrev BFun (n : ℕ) : Type := (Fin n → ℝ) → (Fin n → ℝ) → Fin n → ℝ

/-- The pointwise (batch-independent) application of a scalar function
`g : ℝ → ℝ → ℝ` to a batch: position `i` sees only `(x_i, t_i)`.  This is how
the network evaluates a batch: each output row depends only on its input row. -/
noncomputable def liftPt {n : ℕ} (g : ℝ → ℝ → ℝ) : BFun n :=
  fun xs ts i => g (xs i) (ts i)

/-- The source's sum-then-differentiate operator in x (source line 164):
`u_x = lambda x, t: jax.grad(lambda x, t: jnp.sum(u(x, t)), 0)(x, t)`.
Component `j` of the gradient of the batch sum with respect to the x-column
is the derivative of the sum along the `j`-th coordinate. -/
noncomputable def sumDx {n : ℕ} (u : BFun n) : BFun n :=
  fun xs ts j => deriv (fun s => ∑ i, u (Function.update xs j s) ts i) (xs j)

/-- The source's sum-then-differentiate operator in t (source line 166):
`u_t = lambda x, t: jax.grad(lambda x, t: jnp.sum(u(x, t)), 1)(x, t)`. -/
noncomputable def sumDt {n : ℕ} (u : BFun n) : BFun n :=
  fun xs ts j => deriv (fun s => ∑ i, u xs (Function.update ts j s) i) (ts j)

lemma sumDx_liftPt {n : ℕ} (g : ℝ → ℝ → ℝ) (xs ts : Fin n → ℝ) (j : Fin n) :
    sumDx (liftPt g) xs ts j = deriv (fun x => g x (ts j)) (xs j) := by
  unfold sumDx liftPt
  have h : (fun s => ∑ i : Fin n, g (Function.update xs j s i) (ts i))
      = fun s => g s (ts j) + ∑ i in Finset.univ.erase j, g (xs i) (ts i) := by
    funext s
    rw [← Finset.add_sum_erase _ _ (Finset.mem_univ j)]
    congr 1
    · rw [Function.update_same]
    · exact Finset.sum_congr rfl fun i hi => by
        rw [Function.update_noteq (Finset.ne_of_mem_erase hi)]
  rw [h, deriv_add_const]

lemma sumDt_liftPt {n : ℕ} (g : ℝ → ℝ → ℝ) (xs ts : Fin n → ℝ) (j : Fin n) :
    sumDt (liftPt g) xs ts j = deriv (fun t => g (xs j) t) (ts j) := by
  unfold sumDt liftPt
  have h : (fun s => ∑ i : Fin n, g (xs i) (Function.update ts j s i))
      = fun s => g (xs j) s + ∑ i in Finset.univ.erase j, g (xs i) (ts i) := by
    funext s
    rw [← Finset.add_sum_erase _ _ (Finset.mem_univ j)]
    congr 1
    · rw [Function.update_same]
    · exact Finset.sum_congr rfl fun i hi => by
        rw [Function.update_noteq (Finset.ne_of_mem_erase hi)]
  rw [h, deriv_add_const]

lemma sumDx_liftPt_eq {n : ℕ} (g : ℝ → ℝ → ℝ) :
    sumDx (liftPt g) = (liftPt (fun x t => deriv (fun y => g y t) x) : BFun n) :=
  funext fun xs => funext fun ts => funext fun j => sumDx_liftPt g xs ts j

/-- Claim C2: the sum-then-differentiate construction — applied once for
`u_x`, twice for `u_xx`, and analogously in t for `u_t` — yields at every
batch position `j` exactly the per-point partial derivatives of the
pointwise function `g` at `(x_j, t_j)`: the exact mathematical derivatives.
The Forward Model closed over any fixed ParameterSet is such a pointwise
function (last conjunct). -/
theorem sum_then_differentiate_pointwise {n : ℕ} (g : ℝ → ℝ → ℝ)
    (xs ts : Fin n → ℝ) (j : Fin n) :
    sumDx (liftPt g) xs ts j = deriv (fun x => g x (ts j)) (xs j) ∧
    sumDx (sumDx (liftPt g)) xs ts j
      = deriv (fun x => deriv (fun y => g y (ts j)) x) (xs j) ∧
    sumDt (liftPt g) xs ts j = deriv (fun t => g (xs j) t) (ts j) ∧
    (∀ p : Params 2 1,
      sumDx (liftPt (neural_net_with_hard_constraint p)) xs ts j
        = deriv (fun x => neural_net_with_hard_constraint p x (ts j)) (xs j)) := by
  refine ⟨sumDx_liftPt g xs ts j, ?_, sumDt_liftPt g xs ts j,
    fun p => sumDx_liftPt _ xs ts j⟩
  rw [sumDx_liftPt_eq g]
  exact sumDx_liftPt _ xs ts j

/-- The fixed initial-time point set (source line 97):
`t0 = jnp.stack([xb, jnp.ones(N_b)*tmin], 1)` — x-coordinates `xb` paired
with the constant time `tmin`. -/
noncomputable def t0 {m : ℕ} (xb : Fin m → ℝ) : Fin m → ℝ × ℝ :=
  fun i => (xb i, tmin)

/-- `pde_residual_2d_darcy` (source lines 151-173): builds `u_x`, `u_xx`,
`u_t` by the sum-then-differentiate operators and returns the PDE residual
`u_t - 0.1 * (-u_x + u_xx)` on the batch together with the
initial-condition residual `u(t0_x, t0_t) - 0.0` on the point set `t0pts`. -/
noncomputable def pde_residual_2d_darcy {n m : ℕ} (x t : Fin n → ℝ) (g : ℝ → ℝ → ℝ)
    (t0pts : Fin m → ℝ × ℝ) : (Fin n → ℝ) × (Fin m → ℝ) :=
  let u : BFun n := liftPt g
  let u_x := sumDx u
  let u_xx := sumDx u_x
  let u_t := sumDt u
  let ic1 : Fin m → ℝ :=
    fun i => liftPt g (fun k => (t0pts k).1) (fun k => (t0pts k).2) i - 0.0
  (fun j => u_t x t j - 0.1 * (-(u_x x t j) + u_xx x t j), ic1)

/-- Claim C3: the Residual Assembler returns pointwise
`u_t - 0.1 * (-u_x + u_xx)` (with the exact derivatives) on the batch, and
the initial-condition residual `u(x_ic, tmin) - 0` on the fixed initial-time
point set — independent of the batch `x, t`. -/
theorem residual_assembler_spec {n m : ℕ} (g : ℝ → ℝ → ℝ)
    (x t : Fin n → ℝ) (xb : Fin m → ℝ) :
    (pde_residual_2d_darcy x t g (t0 xb)).1
      = (fun j => deriv (fun s => g (x j) s) (t j)
          - 0.1 * (-(deriv (fun s => g s (t j)) (x j))
            + deriv (fun s => deriv (fun y => g y (t j)) s) (x j))) ∧
    (pde_residual_2d_darcy x t g (t0 xb)).2 = fun i => g (xb i) tmin - 0 := by
  constructor
  · funext j
    show sumDt (liftPt g) x t j
        - 0.1 * (-(sumDx (liftPt g) x t j) + sumDx (sumDx (liftPt g)) x t j) = _
    rw [sumDt_liftPt, sumDx_liftPt, sumDx_liftPt_eq g, sumDx_liftPt]
  · funext i
    show liftPt g (fun k => (t0 xb k).1) (fun k => (t0 xb k).2) i - 0.0 = _
    simp [liftPt, t0]
    norm_num

/-- The first factor of the time weighting (source line 219):
`200.0*(1.0-(t_c-tmin)/(0.1))**2 + 1.0`. -/
noncomputable def lambda_branch_early (t : ℝ) : ℝ :=
  200.0 * (1.0 - (t - tmin) / 0.1) ^ 2 + 1.0

/-- The second factor of the time weighting (source line 220):
`20.0*(1.0-(t_c-tmin)/(tmax-tmin))**2 + 1.0`. -/
noncomputable def lambda_branch_late (t : ℝ) : ℝ :=
  20.0 * (1.0 - (t - tmin) / (tmax - tmin)) ^ 2 + 1.0

/-- The masked time weighting `lambda_t` of `loss_fun` (source lines 219-221):
each branch is multiplied by the indicator of its region and the two are
added. -/
noncomputable def lambda_t (t : ℝ) : ℝ :=
  lambda_branch_early t * (if t ≤ 0.1 then 1 else 0)
    + lambda_branch_late t * (if 0.1 < t then 1 else 0)

/-- `jnp.mean` of a column: the sum divided by the length. -/
noncomputable def mean {k : ℕ} (v : Fin k → ℝ) : ℝ := (∑ i, v i) / k

/-- `loss_fun` (source lines 203-235): splits the collocation batch into
columns, weights the squared PDE residual with `lambda_t`, and adds the
initial-condition loss `100 * mean(ic1 ** 2)`. -/
noncomputable def loss_fun {n m : ℕ} (p : Params 2 1) (colloc : Fin n → ℝ × ℝ)
    (t0pts : Fin m → ℝ × ℝ) : ℝ :=
  let x_c : Fin n → ℝ := fun i => (colloc i).1
  let t_c : Fin n → ℝ := fun i => (colloc i).2
  let u_nn : ℝ → ℝ → ℝ := fun x t => neural_net_with_hard_constraint p x t
  let r := pde_residual_2d_darcy x_c t_c u_nn t0pts
  let pde_loss := mean (fun i => lambda_t (t_c i) * (r.1 i) ^ 2)
  let ic_loss := 100.0 * mean (fun i => (r.2 i) ^ 2)
  pde_loss + ic_loss

lemma lambda_t_eq_ite (t : ℝ) :
    lambda_t t = if t ≤ 0.1 then lambda_branch_early t else lambda_branch_late t := by
  by_cases h : t ≤ 0.1
  · simp [lambda_t, h, not_lt.mpr h]
  · simp [lambda_t, h, not_le.mp h]

/-- Claim C4: for every ParameterSet and batch, the loss is
`mean(lambda(t) * pde_residual^2) + 100 * mean(ic_residual^2)` with the
piecewise weighting `lambda(t) = 200*(1 - t/0.1)^2 + 1` for `t ≤ 0.1` and
`lambda(t) = 20*(1 - (t - tmin)/(tmax - tmin))^2 + 1` for `t > 0.1`, the
initial-condition weight fixed at 100 and no boundary-condition term. -/
theorem loss_assembler_spec {n m : ℕ} (p : Params 2 1) (colloc : Fin n → ℝ × ℝ)
    (t0pts : Fin m → ℝ × ℝ) :
    loss_fun p colloc t0pts =
      (∑ i, (if (colloc i).2 ≤ 0.1
          then 200 * (1 - (colloc i).2 / 0.1) ^ 2 + 1
          else 20 * (1 - ((colloc i).2 - tmin) / (tmax - tmin)) ^ 2 + 1)
        * ((pde_residual_2d_darcy (fun k => (colloc k).1) (fun k => (colloc k).2)
            (neural_net_with_hard_constraint p) t0pts).1 i) ^ 2) / n
      + 100 * ((∑ i, ((pde_residual_2d_darcy (fun k => (colloc k).1)
            (fun k => (colloc k).2)
            (neural_net_with_hard_constraint p) t0pts).2 i) ^ 2) / m) := by
  show mean _ + 100.0 * mean _ = _
  unfold mean
  congr 1
  · congr 1
    · exact Finset.sum_congr rfl fun i _ => by
        simp only [lambda_t_eq_ite]
        by_cases h : (colloc i).2 ≤ (0.1 : ℝ)
        · rw [if_pos h, if_pos h]
          exact congrArg₂ (· * ·) (by unfold lambda_branch_early tmin; norm_num) rfl
        · rw [if_neg h, if_neg h]
          exact congrArg₂ (· * ·) (by unfold lambda_branch_late; norm_num) rfl
  · norm_num

/-- Counterexample to Claim C5: at the breakpoint `t = 0.1` the two branches
of the weighting schedule do not agree under the reference configuration
(`tmin = 0`, `tmax = 1`): the early branch yields `1` while the late branch
yields `17.2`, a jump of `16.2`, far above floating-point tolerance. -/
theorem weighting_breakpoint_discontinuous :
    lambda_branch_early 0.1 = 1 ∧ lambda_branch_late 0.1 = 17.2 ∧
      lambda_branch_early 0.1 ≠ lambda_branch_late 0.1 := by
  unfold lambda_branch_early lambda_branch_late tmin tmax
  norm_num

/-- Claim C5 amended: at `t = 0.1` the early branch yields `1`, the late
branch yields `17.2`, so the schedule has a jump of `16.2` at the
breakpoint; the computed weight at exactly `t = 0.1` is `1` (the `t ≤ 0.1`
mask is active there). -/
theorem weighting_breakpoint_values :
    lambda_branch_early 0.1 = 1 ∧ lambda_branch_late 0.1 = 17.2 ∧
      lambda_branch_late 0.1 - lambda_branch_early 0.1 = 16.2 ∧
      lambda_t 0.1 = 1 := by
  unfold lambda_t lambda_branch_early lambda_branch_late tmin tmax
  norm_num

/-- Claim C10: the weighting satisfies `lambda_t t ≥ 1` everywhere, for
every `t` exactly one of the masks `t ≤ 0.1` and `t > 0.1` is active, and
consequently the loss — a mean of `lambda`-weighted squares plus `100`
times a mean of squares — is non-negative for every ParameterSet and batch. -/
theorem loss_nonneg (p2 : Params 2 1) {n m : ℕ} (colloc : Fin n → ℝ × ℝ)
    (t0pts : Fin m → ℝ × ℝ) :
    (∀ s : ℝ, 1 ≤ lambda_t s) ∧
    (∀ s : ℝ, (s ≤ 0.1 ↔ ¬ (0.1 < s))) ∧
    0 ≤ loss_fun p2 colloc t0pts := by
  have hlam : ∀ s : ℝ, 1 ≤ lambda_t s := by
    intro s
    rw [lambda_t_eq_ite]
    by_cases h : s ≤ 0.1
    · rw [if_pos h]
      unfold lambda_branch_early
      nlinarith [sq_nonneg (1.0 - (s - tmin) / 0.1)]
    · rw [if_neg h]
      unfold lambda_branch_late
      nlinarith [sq_nonneg (1.0 - (s - tmin) / (tmax - tmin))]
  refine ⟨hlam, fun s => not_lt.symm, ?_⟩
  show 0 ≤ mean _ + 100.0 * mean _
  have h1 : 0 ≤ mean (fun i =>
      lambda_t ((fun k => (colloc k).2) i)
        * ((pde_residual_2d_darcy (fun k => (colloc k).1) (fun k => (colloc k).2)
            (fun a b => neural_net_with_hard_constraint p2 a b) t0pts).1 i) ^ 2) := by
    unfold mean
    apply div_nonneg _ (Nat.cast_nonneg n)
    apply Finset.sum_nonneg
    intro i _
    have := hlam ((colloc i).2)
    positivity
  have h2 : 0 ≤ mean (fun i =>
      ((pde_residual_2d_darcy (fun k => (colloc k).1) (fun k => (colloc k).2)
          (fun a b => neural_net_with_hard_constraint p2 a b) t0pts).2 i) ^ 2) := by
    unfold mean
    apply div_nonneg _ (Nat.cast_nonneg m)
    apply Finset.sum_nonneg
    intro i _
    positivity
  nlinarith

/-- One weight entry of `init_params` (source lines 193-195): with
`lb = -(1/sqrt n_in)` and `ub = 1/sqrt n_in`, the entry is
`lb + (ub - lb) * u` where `u` is the raw uniform draw from `[0, 1)`. -/
noncomputable def init_weight_entry (n_in : ℕ) (u : ℝ) : ℝ :=
  -(1 / Real.sqrt n_in) + (1 / Real.sqrt n_in - -(1 / Real.sqrt n_in)) * u

/-- One bias entry of `init_params` (source line 197):
`jax.random.uniform(key, shape=(n_out,))` with the sampler's default bounds
`minval=0, maxval=1`, i.e. the raw uniform draw itself. -/
noncomputable def init_bias_entry (u : ℝ) : ℝ := u

/-- One layer built by `init_params` (source lines 191-199), given the raw
uniform draws for its weight and bias entries. -/
noncomputable def init_layer (nin nout : ℕ) (uW : Fin nin → Fin nout → ℝ)
    (uB : Fin nout → ℝ) : Layer nin nout :=
  ⟨fun i j => init_weight_entry nin (uW i j), fun j => init_bias_entry (uB j)⟩

/-- Counterexample to Claim C9: a valid uniform draw `u = 9/10 ∈ [0, 1)` for
a bias entry of the first layer of the reference configuration
(`inputs = 2`) produces the bias value `9/10`, which lies strictly outside
the Xavier bound `1/sqrt 2 ≈ 0.707`: biases are not drawn within
`±1/sqrt inputs`. -/
theorem init_bias_outside_xavier :
    (0 : ℝ) ≤ 9 / 10 ∧ (9 / 10 : ℝ) < 1 ∧
      (init_layer 2 40 (fun _ _ => 9 / 10) (fun _ => 9 / 10)).B 0 = 9 / 10 ∧
      1 / Real.sqrt 2 < (init_layer 2 40 (fun _ _ => 9 / 10) (fun _ => 9 / 10)).B 0 := by
  refine ⟨by norm_num, by norm_num, rfl, ?_⟩
  show 1 / Real.sqrt 2 < init_bias_entry (9 / 10)
  unfold init_bias_entry
  calc 1 / Real.sqrt 2 < 1 / (10 / 9) := by
        exact one_div_lt_one_div_of_lt (by norm_num) (by
          rw [show (2 : ℝ) = ((2 : ℕ) : ℝ) from by norm_num]
          exact (Real.lt_sqrt (by norm_num)).mpr (by norm_num))
    _ = 9 / 10 := by norm_num
    _ ≤ 9 / 10 := le_refl _

/-- Claim C9 amended: every weight entry lies within the Xavier bounds
`±1/sqrt inputs` of its layer whenever the raw uniform draw is in `[0, 1)`,
while every bias entry equals the raw uniform draw itself, uniform in
`[0, 1)` — not within the Xavier bounds. -/
theorem init_entries_ranges (nin : ℕ) (u : ℝ) (hn : 0 < nin)
    (hu0 : 0 ≤ u) (hu1 : u < 1) :
    -(1 / Real.sqrt nin) ≤ init_weight_entry nin u ∧
      init_weight_entry nin u ≤ 1 / Real.sqrt nin ∧
      init_bias_entry u = u ∧ 0 ≤ init_bias_entry u ∧ init_bias_entry u < 1 := by
  have hs : (0 : ℝ) < Real.sqrt nin :=
    Real.sqrt_pos.mpr (by exact_mod_cast hn)
  have hc : (0 : ℝ) < 1 / Real.sqrt nin := by positivity
  unfold init_weight_entry init_bias_entry
  refine ⟨?_, ?_, rfl, hu0, hu1⟩
  · nlinarith [mul_nonneg hc.le hu0]
  · nlinarith [mul_nonneg hc.le (sub_nonneg.mpr hu1.le)]

/-- Witness for the amended Claim C9 at `inputs = 1`, draw `u = 1/2`. -/
theorem init_entries_ranges_witness :
    0 < 1 ∧ (0 : ℝ) ≤ 1 / 2 ∧ (1 / 2 : ℝ) < 1 ∧
      (-(1 / Real.sqrt (1 : ℕ)) ≤ init_weight_entry 1 (1 / 2) ∧
        init_weight_entry 1 (1 / 2) ≤ 1 / Real.sqrt (1 : ℕ) ∧
        init_bias_entry (1 / 2) = 1 / 2 ∧ 0 ≤ init_bias_entry ((1 : ℝ) / 2) ∧
        init_bias_entry ((1 : ℝ) / 2) < 1) :=
  ⟨by norm_num, by norm_num, by norm_num,
    init_entries_ranges 1 (1 / 2) (by norm_num) (by norm_num) (by norm_num)⟩

/-- The mutable state of the training loop (source lines 296-354), generic
over the optimizer state type `O`, the parameter type `P` and the loss value
type `α`: the live `params`, the Best-Model Tracker triple
(`best_params`, `best_loss`, `best_epoch`) and the LossRecord lists
`all_losses`, `all_epochs`. -/
structure RunState (O P α : Type) : Type where
  opt_state : O
  params : P
  best_params : P
  best_loss : WithTop α
  best_epoch : ℕ
  all_losses : List α
  all_epochs : List ℕ

/-- The comparison `current_loss < best_loss` where `best_loss` starts as
`float('inf')` (modelled as `⊤`). -/
def ltTop {α : Type} [LinearOrder α] (x : α) : WithTop α → Bool
  | ⊤ => true
  | (b : α) => decide (x < b)

lemma ltTop_iff {α : Type} [LinearOrder α] (x : α) (b : WithTop α) :
    ltTop x b = true ↔ (x : WithTop α) < b := by
  cases b with
  | top => simp [ltTop]
  | coe v => simp [ltTop, WithTop.coe_lt_coe]

/-- Tracking state before the loops (source lines 298-305): `best_params`
aliases the initial `params`, `best_loss = float('inf')`, `best_epoch = 0`,
empty loss and epoch lists. -/
def init_run {O P α : Type} (o0 : O) (p0 : P) : RunState O P α :=
  ⟨o0, p0, p0, ⊤, 0, [], []⟩

/-- One Phase-A epoch (source lines 308-321): draw a batch from the
external random stream, run `update` (which returns the new optimizer
state, the new params and the loss), append `(epoch, loss)` to the record,
and overwrite the tracker when the loss strictly improves. -/
def stepA {O P α B : Type} [LinearOrder α]
    (updateA : O → P → B → O × P × α) (draw : ℕ → B)
    (e : ℕ) (s : RunState O P α) : RunState O P α :=
  let r := updateA s.opt_state s.params (draw e)
  let s1 : RunState O P α :=
    { s with
      opt_state := r.1
      params := r.2.1
      all_losses := s.all_losses ++ [r.2.2]
      all_epochs := s.all_epochs ++ [e] }
  if ltTop r.2.2 s.best_loss then
    { s1 with
      best_loss := (r.2.2 : WithTop α)
      best_params := r.2.1
      best_epoch := e }
  else s1

/-- One Phase-B epoch (source lines 331-347): draw a batch, run
`update_lbfgs`, compute the loss of the new params on that batch, append
`(epoch + epochs, loss)` to the record, and overwrite the tracker when the
loss strictly improves; the shared epoch numbering offsets by `epochs`. -/
def stepB {O P α B : Type} [LinearOrder α]
    (update_lbfgs : P → B → P) (loss_fn : P → B → α) (draw : ℕ → B)
    (epochs e : ℕ) (s : RunState O P α) : RunState O P α :=
  let b := draw (epochs + 1 + e)
  let p1 := update_lbfgs s.params b
  let l := loss_fn p1 b
  let s1 : RunState O P α :=
    { s with
      params := p1
      all_losses := s.all_losses ++ [l]
      all_epochs := s.all_epochs ++ [e + epochs] }
  if ltTop l s.best_loss then
    { s1 with
      best_loss := (l : WithTop α)
      best_params := p1
      best_epoch := e + epochs }
  else s1

/-- Phase A (source line 308): `for epoch in range(epochs+1)`. -/
def phase_a {O P α B : Type} [LinearOrder α]
    (updateA : O → P → B → O × P × α) (draw : ℕ → B)
    (epochs : ℕ) (s0 : RunState O P α) : RunState O P α :=
  (List.range (epochs + 1)).foldl (fun s e => stepA updateA draw e s) s0

/-- Phase B (source line 331): `for epoch in range(epochs_lbfgs+1)`. -/
def phase_b {O P α B : Type} [LinearOrder α]
    (update_lbfgs : P → B → P) (loss_fn : P → B → α) (draw : ℕ → B)
    (epochs epochs_lbfgs : ℕ) (s0 : RunState O P α) : RunState O P α :=
  (List.range (epochs_lbfgs + 1)).foldl
    (fun s e => stepB update_lbfgs loss_fn draw epochs e s) s0

/-- The whole training run: Phase A from the initial tracking state, then
Phase B from Phase A's final state. -/
def run_training {O P α B : Type} [LinearOrder α]
    (updateA : O → P → B → O × P × α) (update_lbfgs : P → B → P)
    (loss_fn : P → B → α) (draw : ℕ → B)
    (epochs epochs_lbfgs : ℕ) (o0 : O) (p0 : P) : RunState O P α :=
  phase_b update_lbfgs loss_fn draw epochs epochs_lbfgs
    (phase_a updateA draw epochs (init_run o0 p0))

/-- The run as a single sequence of epoch steps: the `epochs + 1` Phase-A
steps followed by the `epochs_lbfgs + 1` Phase-B steps. -/
def steps_list {O P α B : Type} [LinearOrder α]
    (updateA : O → P → B → O × P × α) (update_lbfgs : P → B → P)
    (loss_fn : P → B → α) (draw : ℕ → B)
    (epochs epochs_lbfgs : ℕ) : List (RunState O P α → RunState O P α) :=
  (List.range (epochs + 1)).map (stepA updateA draw)
    ++ (List.range (epochs_lbfgs + 1)).map (stepB update_lbfgs loss_fn draw epochs)

/-- The loop state after the first `k` epochs of the whole run. -/
def state_after {O P α B : Type} [LinearOrder α]
    (updateA : O → P → B → O × P × α) (update_lbfgs : P → B → P)
    (loss_fn : P → B → α) (draw : ℕ → B)
    (epochs epochs_lbfgs : ℕ) (o0 : O) (p0 : P) (k : ℕ) : RunState O P α :=
  ((steps_list updateA update_lbfgs loss_fn draw epochs epochs_lbfgs).take k).foldl
    (fun s f => f s) (init_run o0 p0)

lemma state_after_total {O P α B : Type} [LinearOrder α]
    (updateA : O → P → B → O × P × α) (update_lbfgs : P → B → P)
    (loss_fn : P → B → α) (draw : ℕ → B)
    (epochs epochs_lbfgs : ℕ) (o0 : O) (p0 : P) :
    state_after updateA update_lbfgs loss_fn draw epochs epochs_lbfgs o0 p0
        ((epochs + 1) + (epochs_lbfgs + 1))
      = run_training updateA update_lbfgs loss_fn draw epochs epochs_lbfgs o0 p0 := by
  unfold state_after run_training phase_a phase_b steps_list
  rw [List.take_of_length_le (by simp)]
  rw [List.foldl_append, List.foldl_map, List.foldl_map]

lemma stepA_best_loss_le {O P α B : Type} [LinearOrder α]
    (updateA : O → P → B → O × P × α) (draw : ℕ → B) (e : ℕ)
    (s : RunState O P α) :
    (stepA updateA draw e s).best_loss ≤ s.best_loss := by
  unfold stepA
  by_cases h : ltTop (updateA s.opt_state s.params (draw e)).2.2 s.best_loss
  · rw [if_pos h]
    exact le_of_lt ((ltTop_iff _ _).mp h)
  · rw [if_neg h]

lemma stepB_best_loss_le {O P α B : Type} [LinearOrder α]
    (update_lbfgs : P → B → P) (loss_fn : P → B → α) (draw : ℕ → B)
    (epochs e : ℕ) (s : RunState O P α) :
    (stepB update_lbfgs loss_fn draw epochs e s).best_loss ≤ s.best_loss := by
  unfold stepB
  by_cases h : ltTop (loss_fn (update_lbfgs s.params (draw (epochs + 1 + e)))
      (draw (epochs + 1 + e))) s.best_loss
  · rw [if_pos h]
    exact le_of_lt ((ltTop_iff _ _).mp h)
  · rw [if_neg h]

/-- Claim C6: in both phases the tracker triple is overwritten exactly when
the current loss is strictly below the stored best, and consequently the
recorded best-loss value is non-increasing from each epoch of the whole run
to the next, however the live loss oscillates. -/
theorem best_model_tracker_monotone {O P α B : Type} [LinearOrder α]
    (updateA : O → P → B → O × P × α) (update_lbfgs : P → B → P)
    (loss_fn : P → B → α) (draw : ℕ → B)
    (epochs epochs_lbfgs : ℕ) (o0 : O) (p0 : P) :
    (∀ (e : ℕ) (s : RunState O P α),
      ((stepA updateA draw e s).best_loss,
        (stepA updateA draw e s).best_epoch,
        (stepA updateA draw e s).best_params) =
      if ((updateA s.opt_state s.params (draw e)).2.2 : WithTop α) < s.best_loss
        then (((updateA s.opt_state s.params (draw e)).2.2 : WithTop α), e,
          (updateA s.opt_state s.params (draw e)).2.1)
        else (s.best_loss, s.best_epoch, s.best_params)) ∧
    (∀ (e : ℕ) (s : RunState O P α),
      ((stepB update_lbfgs loss_fn draw epochs e s).best_loss,
        (stepB update_lbfgs loss_fn draw epochs e s).best_epoch,
        (stepB update_lbfgs loss_fn draw epochs e s).best_params) =
      if ((loss_fn (update_lbfgs s.params (draw (epochs + 1 + e)))
            (draw (epochs + 1 + e)) : α) : WithTop α) < s.best_loss
        then (((loss_fn (update_lbfgs s.params (draw (epochs + 1 + e)))
            (draw (epochs + 1 + e)) : α) : WithTop α), e + epochs,
          update_lbfgs s.params (draw (epochs + 1 + e)))
        else (s.best_loss, s.best_epoch, s.best_params)) ∧
    (∀ k : ℕ,
      (state_after updateA update_lbfgs loss_fn draw epochs epochs_lbfgs o0 p0
          (k + 1)).best_loss ≤
      (state_after updateA update_lbfgs loss_fn draw epochs epochs_lbfgs o0 p0
          k).best_loss) := by
  refine ⟨?_, ?_, ?_⟩
  · intro e s
    unfold stepA
    by_cases h : ((updateA s.opt_state s.params (draw e)).2.2 : WithTop α) < s.best_loss
    · rw [if_pos ((ltTop_iff _ _).mpr h), if_pos h]
    · rw [if_neg (fun hb => h ((ltTop_iff _ _).mp hb)), if_neg h]
  · intro e s
    unfold stepB
    by_cases h : ((loss_fn (update_lbfgs s.params (draw (epochs + 1 + e)))
        (draw (epochs + 1 + e)) : α) : WithTop α) < s.best_loss
    · rw [if_pos ((ltTop_iff _ _).mpr h), if_pos h]
    · rw [if_neg (fun hb => h ((ltTop_iff _ _).mp hb)), if_neg h]
  · intro k
    unfold state_after
    rw [List.take_succ, List.foldl_append]
    cases hk : (steps_list updateA update_lbfgs loss_fn draw epochs epochs_lbfgs
        (O := O) (P := P))[k]? with
    | none => simp
    | some f =>
      simp only [Option.toList, List.foldl_cons, List.foldl_nil]
      have hf : f ∈ steps_list updateA update_lbfgs loss_fn draw epochs epochs_lbfgs
          (O := O) (P := P) := by
        exact List.getElem?_mem hk
      rcases List.mem_append.mp hf with hmem | hmem
      · rcases List.mem_map.mp hmem with ⟨e, _, rfl⟩
        exact stepA_best_loss_le updateA draw e _
      · rcases List.mem_map.mp hmem with ⟨e, _, rfl⟩
        exact stepB_best_loss_le update_lbfgs loss_fn draw epochs e _

lemma stepA_all_losses {O P α B : Type} [LinearOrder α]
    (updateA : O → P → B → O × P × α) (draw : ℕ → B) (e : ℕ)
    (s : RunState O P α) :
    (stepA updateA draw e s).all_losses
        = s.all_losses ++ [(updateA s.opt_state s.params (draw e)).2.2] ∧
    (stepA updateA draw e s).all_epochs = s.all_epochs ++ [e] := by
  by_cases h : ltTop (updateA s.opt_state s.params (draw e)).2.2 s.best_loss <;>
    simp [stepA, h]

lemma stepB_all_losses {O P α B : Type} [LinearOrder α]
    (update_lbfgs : P → B → P) (loss_fn : P → B → α) (draw : ℕ → B)
    (epochs e : ℕ) (s : RunState O P α) :
    (stepB update_lbfgs loss_fn draw epochs e s).all_losses
        = s.all_losses ++ [loss_fn (update_lbfgs s.params (draw (epochs + 1 + e)))
            (draw (epochs + 1 + e))] ∧
    (stepB update_lbfgs loss_fn draw epochs e s).all_epochs
        = s.all_epochs ++ [e + epochs] := by
  by_cases h : ltTop (loss_fn (update_lbfgs s.params (draw (epochs + 1 + e)))
      (draw (epochs + 1 + e))) s.best_loss <;>
    simp [stepB, h]

lemma foldl_stepA_record_lengths {O P α B : Type} [LinearOrder α]
    (updateA : O → P → B → O × P × α) (draw : ℕ → B) (L : List ℕ)
    (s0 : RunState O P α) :
    ((L.foldl (fun s e => stepA updateA draw e s) s0).all_losses.length
        = s0.all_losses.length + L.length) ∧
    ((L.foldl (fun s e => stepA updateA draw e s) s0).all_epochs.length
        = s0.all_epochs.length + L.length) := by
  induction L generalizing s0 with
  | nil => simp
  | cons a L ih =>
    rw [List.foldl_cons]
    refine ⟨?_, ?_⟩
    · rw [(ih _).1, (stepA_all_losses updateA draw a s0).1]
      simp
      omega
    · rw [(ih _).2, (stepA_all_losses updateA draw a s0).2]
      simp
      omega

lemma foldl_stepB_record_lengths {O P α B : Type} [LinearOrder α]
    (update_lbfgs : P → B → P) (loss_fn : P → B → α) (draw : ℕ → B)
    (epochs : ℕ) (L : List ℕ) (s0 : RunState O P α) :
    ((L.foldl (fun s e => stepB update_lbfgs loss_fn draw epochs e s) s0).all_losses.length
        = s0.all_losses.length + L.length) ∧
    ((L.foldl (fun s e => stepB update_lbfgs loss_fn draw epochs e s) s0).all_epochs.length
        = s0.all_epochs.length + L.length) := by
  induction L generalizing s0 with
  | nil => simp
  | cons a L ih =>
    rw [List.foldl_cons]
    refine ⟨?_, ?_⟩
    · rw [(ih _).1, (stepB_all_losses update_lbfgs loss_fn draw epochs a s0).1]
      simp
      omega
    · rw [(ih _).2, (stepB_all_losses update_lbfgs loss_fn draw epochs a s0).2]
      simp
      omega

lemma run_training_record_lengths {O P α B : Type} [LinearOrder α]
    (updateA : O → P → B → O × P × α) (update_lbfgs : P → B → P)
    (loss_fn : P → B → α) (draw : ℕ → B)
    (epochs epochs_lbfgs : ℕ) (o0 : O) (p0 : P) :
    (run_training updateA update_lbfgs loss_fn draw epochs epochs_lbfgs o0 p0).all_losses.length
        = (epochs + 1) + (epochs_lbfgs + 1) ∧
    (run_training updateA update_lbfgs loss_fn draw epochs epochs_lbfgs o0 p0).all_epochs.length
        = (epochs + 1) + (epochs_lbfgs + 1) := by
  unfold run_training phase_a phase_b
  have hA := foldl_stepA_record_lengths updateA draw (List.range (epochs + 1))
    (init_run o0 p0 (α := α))
  have hB := foldl_stepB_record_lengths update_lbfgs loss_fn draw epochs
    (List.range (epochs_lbfgs + 1))
    ((List.range (epochs + 1)).foldl (fun s e => stepA updateA draw e s)
      (init_run o0 p0))
  refine ⟨?_, ?_⟩
  · rw [hB.1, hA.1]
    simp [init_run]
  · rw [hB.2, hA.2]
    simp [init_run]

/-- Claim C7 amended: every epoch of either phase appends exactly one loss
and one epoch entry, each phase runs a fixed pre-declared `count + 1` epochs
(`range(epochs+1)` and `range(epochs_lbfgs+1)`) with no early stopping, so
at the end of the run the LossRecord holds exactly
`(epochs + 1) + (epochs_lbfgs + 1)` entries — 20001 + 251 = 20252 under the
reference configuration, not 20250. -/
theorem loss_record_counts {O P α B : Type} [LinearOrder α]
    (updateA : O → P → B → O × P × α) (update_lbfgs : P → B → P)
    (loss_fn : P → B → α) (draw : ℕ → B)
    (epochs epochs_lbfgs : ℕ) (o0 : O) (p0 : P) :
    (∀ (e : ℕ) (s : RunState O P α),
      (stepA updateA draw e s).all_losses.length = s.all_losses.length + 1 ∧
      (stepA updateA draw e s).all_epochs.length = s.all_epochs.length + 1) ∧
    (∀ (e : ℕ) (s : RunState O P α),
      (stepB update_lbfgs loss_fn draw epochs e s).all_losses.length
          = s.all_losses.length + 1 ∧
      (stepB update_lbfgs loss_fn draw epochs e s).all_epochs.length
          = s.all_epochs.length + 1) ∧
    (run_training updateA update_lbfgs loss_fn draw epochs epochs_lbfgs o0 p0).all_losses.length
        = (epochs + 1) + (epochs_lbfgs + 1) ∧
    (run_training updateA update_lbfgs loss_fn draw epochs epochs_lbfgs o0 p0).all_epochs.length
        = (epochs + 1) + (epochs_lbfgs + 1) := by
  refine ⟨?_, ?_, run_training_record_lengths updateA update_lbfgs loss_fn draw
    epochs epochs_lbfgs o0 p0⟩
  · intro e s
    have h := stepA_all_losses updateA draw e s
    rw [h.1, h.2]
    simp
  · intro e s
    have h := stepB_all_losses update_lbfgs loss_fn draw epochs e s
    rw [h.1, h.2]
    simp

/-- A trivial optimizer instance used to evaluate the loop structure. -/
def unitUpdateA : Unit → Unit → Unit → Unit × Unit × ℚ := fun _ _ _ => ((), (), 0)

/-- A trivial Phase-B update used to evaluate the loop structure. -/
def unitUpdateB : Unit → Unit → Unit := fun _ _ => ()

/-- A trivial loss used to evaluate the loop structure. -/
def unitLoss : Unit → Unit → ℚ := fun _ _ => 0

/-- A trivial batch stream used to evaluate the loop structure. -/
def unitDraw : ℕ → Unit := fun _ => ()

/-- Counterexample to Claim C7: under the reference configuration
(`epochs = 20000`, `epochs_lbfgs = 250`) the run appends 20252 records —
`range(epochs+1)` runs 20001 Phase-A epochs and `range(epochs_lbfgs+1)`
runs 251 Phase-B epochs — not `epochs_phase_a + epochs_phase_b = 20250`. -/
theorem loss_record_count_cex :
    (run_training unitUpdateA unitUpdateB unitLoss unitDraw 20000 250 () ()).all_losses.length
        = 20252 ∧
    (run_training unitUpdateA unitUpdateB unitLoss unitDraw 20000 250 () ()).all_losses.length
        ≠ 20000 + 250 := by
  have h := (run_training_record_lengths unitUpdateA unitUpdateB unitLoss unitDraw
    20000 250 () ()).1
  rw [h]
  omega

/-- Phase-A update returning the drawn batch itself as loss: makes the
LossRecord display which batches were drawn. -/
def echoUpdateA : Unit → Unit → ℚ → Unit × Unit × ℚ := fun _ _ b => ((), (), b)

/-- Phase-B update for the echo instance. -/
def echoUpdateB : Unit → ℚ → Unit := fun _ _ => ()

/-- Loss for the echo instance: the drawn batch itself. -/
def echoLoss : Unit → ℚ → ℚ := fun _ b => b

/-- One possible stream of batch draws from the unseeded numpy global RNG. -/
def draw_stream_zero : ℕ → ℚ := fun _ => 0

/-- Another possible stream of batch draws from the unseeded numpy global
RNG, with the same seeds for everything that is seeded. -/
def draw_stream_one : ℕ → ℚ := fun _ => 1

/-- Evidence for Claim C8 being violated by the code: the batch draws
(`np.random.choice`) come from the never-seeded numpy global RNG, modelled
as an external stream; two runs that agree on everything the seeds determine
(initial parameters, optimizer state, epoch counts, update and loss
functions) but receive different streams produce different LossRecords, so
the run is not a function of the seeds and epoch counts alone. -/
theorem batch_sampling_unseeded_divergence :
    (run_training echoUpdateA echoUpdateB echoLoss draw_stream_zero 0 0 () ()).all_losses
      ≠ (run_training echoUpdateA echoUpdateB echoLoss draw_stream_one 0 0 () ()).all_losses := by
  decide

end HardBC
